import Mathlib

/-!
# Verification of the literature-management paper view

Shallow embedding of `src/view_paper.py`: the data loader (`load_paper_details`,
an SQL LEFT JOIN with a derived status column and an ORDER BY), the filter
engine (`apply_filters`), the label formatter (`format_paper_title`), and the
selector logic inlined in `papers_view`
(`selected.split('] ', 1)[1].split('...')[0]` followed by taking the first row
whose title starts with the candidate).

Text is modelled as `List Char` (Python `str`).  Nullable database columns are
`Option`s; a pandas `NaN` is `none`.  The dataframe is a `List Row` in display
order; pandas boolean-mask filtering is `List.filter` (which, like pandas,
keeps relative order and never copies-modifies the input — the embedding is
pure, so `df.copy()` is the identity).  An operation that raises in Python
(`.iloc[0]` on an empty selection, `split('] ', 1)[1]` with no separator)
returns `none`.
-/

set_option autoImplicit false

namespace LitView

/-- Python strings, modelled as character lists. -/
abbrev Str := List Char

/-- Coerce a Lean string literal to the `Str` model. -/
def str (s : String) : Str := s.data

/-- One row of the dataframe returned by `load_paper_details`: the columns of
the SELECT list, in order.  Columns coming from the LEFT-JOINed
`paper_assessments` relation are nullable, as are the nullable paper columns.
SQLite boolean-ish integers are modelled as `Bool`. -/
structure Row where
  id : Int
  doi : Option Str := none
  title : Str
  authors : Option Str := none
  publication_year : Option Int := none
  venue : Option Str := none
  volume : Option Str := none
  publication_type : Option Str := none
  publication_source : Option Str := none
  processed : Option Int := none
  file_path : Option Str := none
  is_neurosymbolic : Option Bool := none
  is_development : Option Bool := none
  paper_type : Option Str := none
  summary : Option Str := none
  takeaways : Option Str := none
  assessment_date : Option Int := none
  assessment_status : Str
  deriving DecidableEq, Repr

/-- A row of the external `papers` relation. -/
structure Paper where
  id : Int
  doi : Option Str := none
  title : Str
  authors : Option Str := none
  publication_year : Option Int := none
  venue : Option Str := none
  volume : Option Str := none
  publication_type : Option Str := none
  publication_source : Option Str := none
  processed : Option Int := none
  file_path : Option Str := none
  deriving DecidableEq, Repr

/-- A row of the external `paper_assessments` relation. -/
structure Assessment where
  paper_id : Int
  is_neurosymbolic : Option Bool := none
  is_development : Option Bool := none
  paper_type : Option Str := none
  summary : Option Str := none
  takeaways : Option Str := none
  assessment_date : Option Int := none
  deriving DecidableEq, Repr

/-- The CASE expression of the loader's query:
`WHEN a.paper_id IS NULL THEN 'Unassessed' WHEN a.is_neurosymbolic = 1 THEN
'Neurosymbolic' ELSE 'Other'`.  `a.paper_id IS NULL` holds exactly when the
LEFT JOIN matched no assessment. -/
def assessmentStatus : Option Assessment → Str
  | none => str "Unassessed"
  | some a => if a.is_neurosymbolic = some true then str "Neurosymbolic" else str "Other"

/-- Build one joined row from a paper and its (optional) matched assessment. -/
def joinRow (p : Paper) (a : Option Assessment) : Row :=
  { id := p.id
    doi := p.doi
    title := p.title
    authors := p.authors
    publication_year := p.publication_year
    venue := p.venue
    volume := p.volume
    publication_type := p.publication_type
    publication_source := p.publication_source
    processed := p.processed
    file_path := p.file_path
    is_neurosymbolic := Option.bind a Assessment.is_neurosymbolic
    is_development := Option.bind a Assessment.is_development
    paper_type := Option.bind a Assessment.paper_type
    summary := Option.bind a Assessment.summary
    takeaways := Option.bind a Assessment.takeaways
    assessment_date := Option.bind a Assessment.assessment_date
    assessment_status := assessmentStatus a }

/-- The join `papers p LEFT JOIN paper_assessments a ON p.id = a.paper_id`: each paper
yields one row per matching assessment, or a single all-NULL-extended row when
no assessment matches. -/
def leftJoinRows (papers : List Paper) (assessments : List Assessment) : List Row :=
  papers.flatMap fun p =>
    match assessments.filter (fun a => a.paper_id = p.id) with
    | [] => [joinRow p none]
    | ms => ms.map fun a => joinRow p (some a)

/-- SQLite three-valued-free comparison for `ORDER BY <col> DESC` on a nullable
integer column: NULL sorts as the smallest value, hence last under DESC. -/
def cmpOptInt : Option Int → Option Int → Ordering
  | none, none => .eq
  | none, some _ => .lt
  | some _, none => .gt
  | some x, some y => compare x y

/-- Ordering relation for `ORDER BY a.assessment_date DESC, p.publication_year DESC`:
`rowLe x y` means `x` may appear no later than `y`. -/
def rowLe (x y : Row) : Bool :=
  match cmpOptInt x.assessment_date y.assessment_date with
  | .gt => true
  | .lt => false
  | .eq =>
    match cmpOptInt x.publication_year y.publication_year with
    | .lt => false
    | _ => true

/-- Model of `load_paper_details`, with the database contents made explicit: the LEFT
JOIN with the derived `assessment_status` column, ordered by assessment date
descending then publication year descending. -/
def load_paper_details (papers : List Paper) (assessments : List Assessment) : List Row :=
  (leftJoinRows papers assessments).insertionSort fun x y => rowLe x y = true

/-- The filter specification dictionary passed to `apply_filters`; a key absent
from the Python dict is `none`. -/
structure Filters where
  years : Option (List Int) := none
  paper_type : Option Str := none
  focus : Option Str := none
  development : Option Str := none
  deriving DecidableEq, Repr

/-- The empty filter dict `{}`. -/
def emptyFilters : Filters := {}

/-- Mask `filtered_df['publication_year'].isin(filters['years'])`: a missing year is
never a member. -/
def yearMask (ys : List Int) (r : Row) : Bool :=
  match r.publication_year with
  | some y => ys.contains y
  | none => false

/-- Mask `(df['paper_type'] == v) & (df['paper_type'].notna())`: pandas `==` against
a scalar is false on NaN, so the conjunct mirrors the source. -/
def typeMask (v : Str) (r : Row) : Bool :=
  (r.paper_type = some v) ∧ ¬ r.paper_type.isNone

/-- Mask `df['assessment_status'] == 'Neurosymbolic'`. -/
def focusNeuroMask (r : Row) : Bool :=
  r.assessment_status = str "Neurosymbolic"

/-- Mask `df['assessment_status'].isin(['Unassessed', 'Other'])`. -/
def focusOtherMask (r : Row) : Bool :=
  [str "Unassessed", str "Other"].contains r.assessment_status

/-- Mask `df['is_development'] == True`. -/
def devYesMask (r : Row) : Bool :=
  r.is_development = some true

/-- Mask `(df['is_development'] == False) | (df['is_development'].isna())`. -/
def devNoMask (r : Row) : Bool :=
  (r.is_development = some false) ∨ r.is_development.isNone

/-- Stage `if filters.get('years'):` of `apply_filters`.  Python truthiness: the branch is
taken when the key is present with a non-empty list. -/
def filterYears (f : Filters) (df : List Row) : List Row :=
  match f.years with
  | some ys => if ys.isEmpty then df else df.filter (yearMask ys)
  | none => df

/-- Stage `if filters.get('paper_type') and filters['paper_type'] != "All":` — the
empty string is falsy in Python. -/
def filterType (f : Filters) (df : List Row) : List Row :=
  match f.paper_type with
  | some v => if v.isEmpty ∨ v = str "All" then df else df.filter (typeMask v)
  | none => df

/-- Stage `if filters.get('focus') and filters['focus'] != "All":` with the inner
`== "Neurosymbolic"` dispatch. -/
def filterFocus (f : Filters) (df : List Row) : List Row :=
  match f.focus with
  | some v =>
    if v.isEmpty ∨ v = str "All" then df
    else if v = str "Neurosymbolic" then df.filter focusNeuroMask
    else df.filter focusOtherMask
  | none => df

/-- Stage `if filters.get('development') and filters['development'] != "All":` with
the inner `== "Yes"` dispatch. -/
def filterDev (f : Filters) (df : List Row) : List Row :=
  match f.development with
  | some v =>
    if v.isEmpty ∨ v = str "All" then df
    else if v = str "Yes" then df.filter devYesMask
    else df.filter devNoMask
  | none => df

/-- Model of `apply_filters(df, filters)`: the four conditional maskings applied in
source order to a copy of the input (copying is the identity here since the
embedding is pure and `List.filter` shares, never mutates). -/
def apply_filters (df : List Row) (filters : Filters) : List Row :=
  filterDev filters (filterFocus filters (filterType filters (filterYears filters df)))

/-- Display form of the title:
`row['title'][:100] + "..." if len(row['title']) > 100 else row['title']`. -/
def displayTitle (r : Row) : Str :=
  if r.title.length > 100 then r.title.take 100 ++ str "..." else r.title

/-- Model of `format_paper_title(row)`: `"[" + status + "] "` followed by the
display form of the title. -/
def format_paper_title (r : Row) : Str :=
  str "[" ++ r.assessment_status ++ str "] " ++ displayTitle r

/-- Model of `label.split('] ', 1)[1]`: everything after the first occurrence of the
two-character separator `"] "`; `none` when the separator is absent (Python
raises `IndexError` there). -/
def afterStatusMarker : Str → Option Str
  | [] => none
  | c :: cs =>
    if (c :: cs).take 2 = [']', ' '] then some (cs.drop 1)
    else afterStatusMarker cs

/-- Model of `s.split('...')[0]`: the prefix of `s` before the first occurrence of
`"..."`, or all of `s` when there is none. -/
def stripAtEllipsis : Str → Str
  | [] => []
  | c :: cs =>
    if (c :: cs).take 3 = ['.', '.', '.'] then []
    else c :: stripAtEllipsis cs

/-- Does `s` contain `"..."` as a substring? -/
def hasEllipsis : Str → Bool
  | [] => false
  | c :: cs => (c :: cs).take 3 = ['.', '.', '.'] || hasEllipsis cs

/-- The candidate title prefix the selector extracts from a display label:
`selected_paper_title.split('] ', 1)[1].split('...')[0]`. -/
def extractCandidate (label : Str) : Option Str :=
  (afterStatusMarker label).map stripAtEllipsis

/-- The selector of `papers_view`:
`filtered_df[filtered_df['title'].str.startswith(original_title)].iloc[0]`.
`none` models the raised error (an out-of-bounds `.iloc[0]` when no title
matches, or the `IndexError` from a label without `"] "`). -/
def selectPaper (df : List Row) (label : Str) : Option Row :=
  match extractCandidate label with
  | none => none
  | some cand => df.find? fun r => cand.isPrefixOf r.title


/-! ## Filter engine: normal form as a single `List.filter` -/

/-- Predicate of the years stage: vacuously true when the stage is inactive. -/
def passYears (f : Filters) (r : Row) : Bool :=
  match f.years with
  | some ys => if ys.isEmpty then true else yearMask ys r
  | none => true

/-- Predicate of the paper-type stage. -/
def passType (f : Filters) (r : Row) : Bool :=
  match f.paper_type with
  | some v => if v.isEmpty ∨ v = str "All" then true else typeMask v r
  | none => true

/-- Predicate of the focus stage. -/
def passFocus (f : Filters) (r : Row) : Bool :=
  match f.focus with
  | some v =>
    if v.isEmpty ∨ v = str "All" then true
    else if v = str "Neurosymbolic" then focusNeuroMask r
    else focusOtherMask r
  | none => true

/-- Predicate of the development stage. -/
def passDev (f : Filters) (r : Row) : Bool :=
  match f.development with
  | some v =>
    if v.isEmpty ∨ v = str "All" then true
    else if v = str "Yes" then devYesMask r
    else devNoMask r
  | none => true

theorem filterYears_eq (f : Filters) (df : List Row) :
    filterYears f df = df.filter (passYears f) := by
  unfold filterYears passYears
  cases f.years with
  | none => simp
  | some ys => by_cases h : ys.isEmpty <;> simp [h]

theorem filterType_eq (f : Filters) (df : List Row) :
    filterType f df = df.filter (passType f) := by
  unfold filterType passType
  cases f.paper_type with
  | none => simp
  | some v =>
    by_cases h1 : v = []
    · simp [h1]
    · by_cases h2 : v = str "All" <;> simp [h1, h2, List.isEmpty_iff]

theorem filterFocus_eq (f : Filters) (df : List Row) :
    filterFocus f df = df.filter (passFocus f) := by
  unfold filterFocus passFocus
  cases f.focus with
  | none => simp
  | some v =>
    by_cases h1 : v = []
    · simp [h1]
    · by_cases h2 : v = str "All"
      · simp [h2]
      · by_cases h3 : v = str "Neurosymbolic" <;>
          simp +decide [h1, h2, h3, List.isEmpty_iff]

theorem filterDev_eq (f : Filters) (df : List Row) :
    filterDev f df = df.filter (passDev f) := by
  unfold filterDev passDev
  cases f.development with
  | none => simp
  | some v =>
    by_cases h1 : v = []
    · simp [h1]
    · by_cases h2 : v = str "All"
      · simp [h2]
      · by_cases h3 : v = str "Yes" <;>
          simp +decide [h1, h2, h3, List.isEmpty_iff]

/-- The four sequential stages collapse to one `List.filter` whose predicate is
the conjunction of the stage predicates, in source order. -/
theorem apply_filters_eq_filter (df : List Row) (f : Filters) :
    apply_filters df f = df.filter fun r =>
      passYears f r && passType f r && passFocus f r && passDev f r := by
  unfold apply_filters
  rw [filterYears_eq, filterType_eq, filterFocus_eq, filterDev_eq,
      List.filter_filter, List.filter_filter, List.filter_filter]
  exact List.filter_congr fun r _ => by
    cases passYears f r <;> cases passType f r <;> cases passFocus f r <;>
      cases passDev f r <;> rfl

/-! ## Filter dimensions, for the conjunctive law -/

/-- One filter dimension together with its chosen value. -/
inductive FilterDim where
  | years (ys : List Int)
  | paperType (v : Str)
  | focus (v : Str)
  | development (v : Str)
  deriving DecidableEq, Repr

/-- Add a dimension (with its value) to a filter specification. -/
def FilterDim.set (d : FilterDim) (f : Filters) : Filters :=
  match d with
  | .years ys => { f with years := some ys }
  | .paperType v => { f with paper_type := some v }
  | .focus v => { f with focus := some v }
  | .development v => { f with development := some v }

/-- The spec `{d}` holding a single dimension. -/
def singleFilter (d : FilterDim) : Filters := FilterDim.set d emptyFilters

/-- Which of the four dimensions a `FilterDim` sets; two `FilterDim`s are
distinct dimensions when their kinds differ. -/
def FilterDim.kind : FilterDim → Nat
  | .years _ => 0
  | .paperType _ => 1
  | .focus _ => 2
  | .development _ => 3

/-! ## Claims about the filter engine -/

/-- C2: applying `apply_filters` with the empty filter dict `{}` returns a
table equal to the input — same rows, same order, same values.  (The embedding
is pure, so the input list is by construction left unmodified; an absent spec
is not even passed to `apply_filters` in `papers_view`.) -/
theorem claim_C2_identity (df : List Row) : apply_filters df emptyFilters = df := rfl

/-- C10: the output of `apply_filters` is a sublist of its input: every output
row is an input row with all field values unchanged, no row appears more often
than in the input, and the kept rows appear in the input's relative order —
exactly `List.Sublist`. -/
theorem claim_C10_sublist_of_input (df : List Row) (f : Filters) :
    List.Sublist (apply_filters df f) df := by
  rw [apply_filters_eq_filter]
  exact List.filter_sublist df

/-- C3: for two distinct filter dimensions `d1`, `d2`, filtering first with
`{d1}` and then with `{d2}` equals filtering once with the combined spec
`{d1, d2}`. -/
theorem claim_C3_conjunctive (T : List Row) (d1 d2 : FilterDim)
    (h : d1.kind ≠ d2.kind) :
    apply_filters (apply_filters T (singleFilter d1)) (singleFilter d2)
      = apply_filters T (FilterDim.set d2 (singleFilter d1)) := by
  rw [apply_filters_eq_filter, apply_filters_eq_filter, apply_filters_eq_filter,
      List.filter_filter]
  refine List.filter_congr fun r _ => ?_
  cases d1 <;> cases d2 <;>
    simp [FilterDim.kind] at h <;>
    simp [passYears, passType, passFocus, passDev, FilterDim.set, singleFilter,
          emptyFilters, Bool.and_comm, Bool.and_left_comm, Bool.and_assoc]

/-- Sample row used to instantiate hypotheses of the filter-law theorems. -/
def wRow : Row :=
  { id := 1, title := str "t", publication_year := some 2021,
    is_development := some true, assessment_status := str "Other" }

/-- Witness for C3 at concrete input: the years and development dimensions are
distinct, and the law evaluates on a one-row table. -/
theorem claim_C3_witness :
    FilterDim.kind (.years [2021]) ≠ FilterDim.kind (.development (str "Yes"))
    ∧ apply_filters (apply_filters [wRow] (singleFilter (.years [2021])))
        (singleFilter (.development (str "Yes")))
      = apply_filters [wRow]
          (FilterDim.set (.development (str "Yes")) (singleFilter (.years [2021]))) :=
  ⟨by decide, claim_C3_conjunctive [wRow] _ _ (by decide)⟩

/-- C4: `development="Yes"` keeps exactly the rows whose development flag is
`true` (not missing); `development="No"` keeps exactly those where it is
`false` or missing; and for every row exactly one of the two predicates holds,
so the two selections partition any table. -/
theorem claim_C4_development_filter :
    (∀ df : List Row, apply_filters df { development := some (str "Yes") }
        = df.filter fun r => decide (r.is_development = some true))
    ∧ (∀ df : List Row, apply_filters df { development := some (str "No") }
        = df.filter fun r =>
            decide (r.is_development = some false ∨ r.is_development = none))
    ∧ ∀ r : Row, decide (r.is_development = some true)
        = ! decide (r.is_development = some false ∨ r.is_development = none) := by
  refine ⟨fun df => ?_, fun df => ?_, fun r => ?_⟩
  · rw [apply_filters_eq_filter]
    refine List.filter_congr fun r _ => ?_
    simp +decide [passYears, passType, passFocus, passDev, devYesMask]
  · rw [apply_filters_eq_filter]
    refine List.filter_congr fun r _ => ?_
    rcases hd : r.is_development with _ | b
    · simp +decide [passYears, passType, passFocus, passDev, devNoMask, hd]
    · cases b <;> simp +decide [passYears, passType, passFocus, passDev, devNoMask, hd]
  · rcases hd : r.is_development with _ | b
    · rfl
    · cases b <;> rfl

/-- Row whose derived status is Neurosymbolic, for the focus-filter claims. -/
def nRow : Row := { id := 2, title := str "n", assessment_status := str "Neurosymbolic" }

/-- C8 counterexample: the empty string is a focus value different from "All"
and from "Neurosymbolic", so the claim says it must keep exactly the
Unassessed/Other rows; but the code treats it as falsy (`filters.get('focus')`)
and applies no restriction, keeping a Neurosymbolic row. -/
theorem claim_C8_counterexample :
    str "" ≠ str "All" ∧ str "" ≠ str "Neurosymbolic"
    ∧ nRow.assessment_status = str "Neurosymbolic"
    ∧ apply_filters [nRow] { focus := some (str "") } = [nRow] := by decide

/-- C8 (amended): `focus` absent, empty, or `"All"` applies no restriction;
`focus="Neurosymbolic"` keeps exactly the rows with derived status
Neurosymbolic (in particular Unassessed rows are excluded); and any other
non-empty focus value keeps exactly the rows with status Unassessed or Other. -/
theorem claim_C8_focus_filter :
    (∀ df : List Row, apply_filters df { focus := none } = df)
    ∧ (∀ df : List Row, apply_filters df { focus := some (str "") } = df)
    ∧ (∀ df : List Row, apply_filters df { focus := some (str "All") } = df)
    ∧ (∀ df : List Row, apply_filters df { focus := some (str "Neurosymbolic") }
        = df.filter fun r => decide (r.assessment_status = str "Neurosymbolic"))
    ∧ ∀ (df : List Row) (v : Str), v ≠ [] → v ≠ str "All" → v ≠ str "Neurosymbolic" →
        apply_filters df { focus := some v }
          = df.filter fun r =>
              decide (r.assessment_status = str "Unassessed"
                ∨ r.assessment_status = str "Other") := by
  refine ⟨fun df => rfl, fun df => ?_, fun df => ?_, fun df => ?_,
          fun df v h1 h2 h3 => ?_⟩
  · rw [apply_filters_eq_filter]
    simp +decide [passYears, passType, passFocus, passDev]
  · rw [apply_filters_eq_filter]
    simp +decide [passYears, passType, passFocus, passDev]
  · rw [apply_filters_eq_filter]
    refine List.filter_congr fun r _ => ?_
    simp +decide [passYears, passType, passFocus, passDev, focusNeuroMask]
  · rw [apply_filters_eq_filter]
    refine List.filter_congr fun r _ => ?_
    simp [passYears, passType, passFocus, passDev, focusOtherMask,
          List.isEmpty_iff, h1, h2, h3, Bool.beq_eq_decide_eq]

/-- Bridge between the boolean `List.contains` used by `isin` and decidable
membership. -/
theorem contains_eq_decide_mem (ys : List Int) (y : Int) :
    ys.contains y = decide (y ∈ ys) := by
  induction ys with
  | nil => rfl
  | cons a l ih => simp [List.contains_cons, ih, Bool.beq_eq_decide_eq]

/-- Rows with a publication year, for the year-filter claims. -/
def yRow (i y : Int) : Row :=
  { id := i, title := str "t", publication_year := some y,
    assessment_status := str "Unassessed" }

/-- C9: a non-empty `years` list keeps exactly the rows whose publication year
is a member of it (a missing year is never a member); an absent or empty
`years` option applies no restriction; and on the 3-row table with years
2020, 2021, 2021 the filter `{years: [2021]}` yields exactly the two rows with
year 2021. -/
theorem claim_C9_year_filter :
    (∀ (df : List Row) (ys : List Int), ys ≠ [] →
        apply_filters df { years := some ys }
          = df.filter fun r => decide (∃ y ∈ ys, r.publication_year = some y))
    ∧ (∀ df : List Row, apply_filters df { years := none } = df)
    ∧ (∀ df : List Row, apply_filters df { years := some [] } = df)
    ∧ apply_filters [yRow 1 2020, yRow 2 2021, yRow 3 2021] { years := some [2021] }
        = [yRow 2 2021, yRow 3 2021] := by
  refine ⟨fun df ys hys => ?_, fun df => rfl, fun df => ?_, by decide⟩
  · rw [apply_filters_eq_filter]
    refine List.filter_congr fun r _ => ?_
    rcases hy : r.publication_year with _ | y0 <;>
      simp [passYears, passType, passFocus, passDev, yearMask, List.isEmpty_iff,
            hys, hy, contains_eq_decide_mem]
  · rw [apply_filters_eq_filter]
    simp [passYears, passType, passFocus, passDev]

/-- Witness for C9 at concrete input: the non-empty list `[2021]` on a
one-row table. -/
theorem claim_C9_witness :
    ([2021] : List Int) ≠ []
    ∧ apply_filters [yRow 1 2020] { years := some [2021] }
      = List.filter (fun r => decide (∃ y ∈ [(2021 : Int)], r.publication_year = some y))
          [yRow 1 2020] :=
  ⟨by decide, claim_C9_year_filter.1 [yRow 1 2020] [2021] (by decide)⟩

/-- Witness for C8 at concrete input: the focus value "Zebra" is non-empty and
differs from "All" and "Neurosymbolic". -/
theorem claim_C8_witness :
    str "Zebra" ≠ [] ∧ str "Zebra" ≠ str "All" ∧ str "Zebra" ≠ str "Neurosymbolic"
    ∧ apply_filters [nRow] { focus := some (str "Zebra") }
      = List.filter
          (fun r => decide (r.assessment_status = str "Unassessed"
            ∨ r.assessment_status = str "Other")) [nRow] :=
  ⟨by decide, by decide, by decide,
    claim_C8_focus_filter.2.2.2.2 [nRow] (str "Zebra") (by decide) (by decide) (by decide)⟩

/-! ## Selector lemmas -/

/-- Unfolded literal: the opening status bracket. -/
theorem str_lbracket : str "[" = ['\x5b'] := rfl

/-- Unfolded literal: the status separator `"] "`. -/
theorem str_sep : str "] " = [']', ' '] := rfl

/-- Unfolded literal: the ellipsis marker. -/
theorem str_dots : str "..." = ['.', '.', '.'] := rfl

/-- Stripping at the first ellipsis marker yields a leading part of the input. -/
theorem stripAtEllipsis_isPrefix (s : Str) : stripAtEllipsis s <+: s := by
  induction s with
  | nil => exact ⟨[], rfl⟩
  | cons c cs ih =>
    unfold stripAtEllipsis
    by_cases h : (c :: cs).take 3 = ['.', '.', '.']
    · rw [if_pos h]
      exact ⟨c :: cs, rfl⟩
    · rw [if_neg h]
      obtain ⟨t, ht⟩ := ih
      exact ⟨t, by rw [List.cons_append, ht]⟩

/-- Stripping the display form of a long title at the first ellipsis marker
yields a leading part of the truncation itself, even when the marker straddles
the truncation point and the appended dots. -/
theorem stripAtEllipsis_append_isPrefix (s : Str) :
    stripAtEllipsis (s ++ ['.', '.', '.']) <+: s := by
  induction s with
  | nil => exact ⟨[], rfl⟩
  | cons c cs ih =>
    rw [List.cons_append]
    unfold stripAtEllipsis
    by_cases h : (c :: (cs ++ ['.', '.', '.'])).take 3 = ['.', '.', '.']
    · rw [if_pos h]
      exact ⟨c :: cs, rfl⟩
    · rw [if_neg h]
      obtain ⟨t, ht⟩ := ih
      exact ⟨t, by rw [List.cons_append, ht]⟩

/-- The candidate prefix the selector recovers from a row's own label. -/
def candidateOf (r : Row) : Str := stripAtEllipsis (displayTitle r)

/-- The recovered candidate is always a true prefix-part of the row's title. -/
theorem candidateOf_isPrefix (r : Row) : candidateOf r <+: r.title := by
  unfold candidateOf displayTitle
  by_cases h : r.title.length > 100
  · rw [if_pos h, str_dots]
    refine (stripAtEllipsis_append_isPrefix (r.title.take 100)).trans ?_
    exact ⟨r.title.drop 100, List.take_append_drop 100 r.title⟩
  · rw [if_neg h]
    exact stripAtEllipsis_isPrefix r.title

/-- Splitting after the first `"] "` skips any leading part free of `']'`. -/
theorem afterStatusMarker_append (pre rest : Str) (h : ']' ∉ pre) :
    afterStatusMarker (pre ++ (']' :: ' ' :: rest)) = some rest := by
  induction pre with
  | nil =>
    rw [List.nil_append]
    unfold afterStatusMarker
    rw [if_pos (by simp)]
    simp
  | cons c pre ih =>
    have hc : c ≠ ']' := fun hcc => h (by simp [hcc])
    rw [List.cons_append]
    unfold afterStatusMarker
    by_cases hcond : (c :: (pre ++ (']' :: ' ' :: rest))).take 2 = [']', ' ']
    · exfalso
      apply hc
      simpa using congrArg (fun l => l.headD ' ') hcond
    · rw [if_neg hcond]
      exact ih fun hm => h (List.mem_cons_of_mem _ hm)

/-- On a label the formatter produced, the selector extracts exactly the
stripped display title, as long as the status contains no `']'`. -/
theorem extractCandidate_format (r : Row) (h : ']' ∉ r.assessment_status) :
    extractCandidate (format_paper_title r) = some (candidateOf r) := by
  unfold extractCandidate format_paper_title
  have heq : str "[" ++ r.assessment_status ++ str "] " ++ displayTitle r
      = ('\x5b' :: r.assessment_status) ++ (']' :: ' ' :: displayTitle r) := by
    rw [str_lbracket, str_sep]
    simp
  rw [heq, afterStatusMarker_append _ _ (by simp [h])]
  rfl

/-- A `find?` returning the designated element: it is present, satisfies the
predicate, and is the only element of the list that does. -/
theorem find?_eq_some_of_unique {α : Type} (p : α → Bool) (l : List α) (a : α)
    (ha : a ∈ l) (hpa : p a = true) (huniq : ∀ x ∈ l, p x = true → x = a) :
    l.find? p = some a := by
  induction l with
  | nil => cases ha
  | cons b l ih =>
    by_cases hb : p b = true
    · have hba : b = a := huniq b (List.mem_cons_self b l) hb
      rw [List.find?_cons_of_pos _ hb, hba]
    · rcases List.mem_cons.mp ha with rfl | ha2
      · exact absurd hpa hb
      · rw [List.find?_cons_of_neg _ (by simpa using hb)]
        exact ih ha2 fun x hx hpx => huniq x (List.mem_cons_of_mem _ hx) hpx

/-- The selector returns the labelled row when the extracted candidate leads
back to it uniquely. -/
theorem selectPaper_format_eq_some (df : List Row) (r : Row) (cand : Str)
    (hext : extractCandidate (format_paper_title r) = some cand)
    (hpre : cand <+: r.title) (hr : r ∈ df)
    (huniq : ∀ rr ∈ df, cand <+: rr.title → rr = r) :
    selectPaper df (format_paper_title r) = some r := by
  unfold selectPaper
  rw [hext]
  refine find?_eq_some_of_unique _ df r hr (by simpa using hpre) ?_
  intro x hx hpx
  exact huniq x hx (by simpa using hpx)

/-- A string free of the ellipsis marker is left whole by the stripping. -/
theorem stripAtEllipsis_of_not_hasEllipsis (s : Str) (h : hasEllipsis s = false) :
    stripAtEllipsis s = s := by
  induction s with
  | nil => rfl
  | cons c cs ih =>
    unfold hasEllipsis at h
    rw [Bool.or_eq_false_iff] at h
    unfold stripAtEllipsis
    rw [if_neg (by simpa using h.1), ih h.2]

/-! ## Claims about the selector -/

/-- The three derived statuses of the data model. -/
def validStatuses : List Str := [str "Unassessed", str "Neurosymbolic", str "Other"]

/-- A derived status never contains the character `']'`. -/
theorem validStatus_no_bracket (t : Str) (h : t ∈ validStatuses) : ']' ∉ t := by
  simp only [validStatuses, List.mem_cons, List.not_mem_nil, or_false] at h
  rcases h with h | h | h <;> rw [h] <;> decide

/-- C1 (amended): formatting a row's label and then running the selector
returns that row, provided the row's derived status is one of the three valid
statuses and the candidate prefix extracted from the row's label (the display
title stripped at the first ellipsis marker) leads to no other row of the
filtered table — i.e. every row whose title starts with that candidate is the
row itself.  (The claim's original hypothesis — pairwise-distinct first-100-
character title prefixes — is not sufficient, see the counterexample.) -/
theorem claim_C1_selector_roundtrip (df : List Row) (r : Row)
    (hr : r ∈ df) (hstatus : r.assessment_status ∈ validStatuses)
    (huniq : ∀ rr ∈ df, candidateOf r <+: rr.title → rr = r) :
    selectPaper df (format_paper_title r) = some r :=
  selectPaper_format_eq_some df r (candidateOf r)
    (extractCandidate_format r (validStatus_no_bracket _ hstatus))
    (candidateOf_isPrefix r) hr huniq

/-- Papers for the C1 counterexample: distinct first-100-character title
prefixes "ab" and "a", no assessments. -/
def xPa : Paper := { id := 0, title := str "ab", publication_year := some 2021 }

/-- Second paper for the C1 counterexample. -/
def xPb : Paper := { id := 1, title := str "a", publication_year := some 2020 }

/-- The loaded-and-unfiltered table of the C1 counterexample. -/
def xDf : List Row := apply_filters (load_paper_details [xPa, xPb] []) emptyFilters

/-- Joined row of `xPa`. -/
def xRa : Row := joinRow xPa none

/-- Joined row of `xPb`. -/
def xRb : Row := joinRow xPb none

/-- C1 counterexample: a filtered table whose rows have pairwise-distinct
first-100-character title prefixes ("ab" vs "a"), yet formatting the label of
the second row and running the selector returns the FIRST row, because the
first title merely starts with the second one.  The claim as stated is false. -/
theorem claim_C1_counterexample :
    xDf = [xRa, xRb]
    ∧ xRa.title.take 100 ≠ xRb.title.take 100
    ∧ xRb ∈ xDf
    ∧ selectPaper xDf (format_paper_title xRb) = some xRa
    ∧ xRa ≠ xRb := by decide

/-- Table rows for the C1 witness: titles "Alpha" and "Beta", neither a prefix
of the other. -/
def wR1 : Row := { id := 1, title := str "Alpha", assessment_status := str "Other" }

/-- Second row for the C1 witness. -/
def wR2 : Row := { id := 2, title := str "Beta", assessment_status := str "Unassessed" }

/-- Witness for C1 at concrete input: a two-row table where the candidate
"Beta" leads only to its own row. -/
theorem claim_C1_witness :
    wR2 ∈ [wR1, wR2]
    ∧ wR2.assessment_status ∈ validStatuses
    ∧ (∀ rr ∈ [wR1, wR2], candidateOf wR2 <+: rr.title → rr = wR2)
    ∧ selectPaper [wR1, wR2] (format_paper_title wR2) = some wR2 :=
  ⟨by decide, by decide, by decide,
    claim_C1_selector_roundtrip [wR1, wR2] wR2 (by decide) (by decide) (by decide)⟩

/-- C6 (amended): for a row whose title is exactly 100 characters long the
formatted label contains the full title with no ellipsis marker appended; if
the title itself contains no ellipsis marker, the selector's candidate prefix
is the full untruncated title; and if moreover no other row's title starts
with it, the selector recovers the row.  (Without the no-ellipsis condition the
candidate can be a strict leading part of the title, see the counterexample.) -/
theorem claim_C6_exact_boundary (df : List Row) (r : Row)
    (hlen : r.title.length = 100) (hstatus : r.assessment_status ∈ validStatuses) :
    format_paper_title r = str "[" ++ r.assessment_status ++ str "] " ++ r.title
    ∧ (hasEllipsis r.title = false →
        extractCandidate (format_paper_title r) = some r.title)
    ∧ (hasEllipsis r.title = false → r ∈ df →
        (∀ rr ∈ df, r.title <+: rr.title → rr = r) →
        selectPaper df (format_paper_title r) = some r) := by
  have hshort : ¬ r.title.length > 100 := by omega
  have hdisp : displayTitle r = r.title := by
    unfold displayTitle
    rw [if_neg hshort]
  have hcand : hasEllipsis r.title = false → candidateOf r = r.title := by
    intro hdots
    unfold candidateOf
    rw [hdisp, stripAtEllipsis_of_not_hasEllipsis _ hdots]
  refine ⟨?_, fun hdots => ?_, fun hdots hr huniq => ?_⟩
  · unfold format_paper_title
    rw [hdisp]
  · rw [extractCandidate_format r (validStatus_no_bracket _ hstatus), hcand hdots]
  · refine selectPaper_format_eq_some df r r.title ?_ ⟨[], List.append_nil _⟩ hr huniq
    rw [extractCandidate_format r (validStatus_no_bracket _ hstatus), hcand hdots]

/-- Paper for the C6 counterexample whose title starts with "ab". -/
def cPa : Paper := { id := 0, title := str "abz", publication_year := some 2021 }

/-- Paper for the C6 counterexample: title exactly 100 characters and it
contains an ellipsis marker after "ab". -/
def cPb : Paper :=
  { id := 1, title := str "ab" ++ ['.', '.', '.'] ++ List.replicate 95 'c',
    publication_year := some 2020 }

/-- The loaded-and-unfiltered table of the C6 counterexample. -/
def cDf : List Row := apply_filters (load_paper_details [cPa, cPb] []) emptyFilters

/-- Joined row of `cPa`. -/
def cRa : Row := joinRow cPa none

/-- Joined row of `cPb`. -/
def cRb : Row := joinRow cPb none

/-- C6 counterexample: a row whose title is exactly 100 characters long, yet
the selector does NOT use the full untruncated title as the candidate prefix —
the label is split at the ellipsis marker inside the title, the candidate
degenerates to "ab", and the selector returns a different row. -/
theorem claim_C6_counterexample :
    cRb.title.length = 100
    ∧ cDf = [cRa, cRb]
    ∧ extractCandidate (format_paper_title cRb) = some (str "ab")
    ∧ str "ab" ≠ cRb.title
    ∧ selectPaper cDf (format_paper_title cRb) = some cRa
    ∧ cRa ≠ cRb := by decide

/-- Row with a 100-character dot-free title, for the C6 witness. -/
def wR3 : Row :=
  { id := 3, title := List.replicate 100 'q', assessment_status := str "Other" }

/-- Witness for C6 at concrete input: a 100-character title without ellipsis
marker on a one-row table. -/
theorem claim_C6_witness :
    wR3.title.length = 100 ∧ hasEllipsis wR3.title = false
    ∧ selectPaper [wR3] (format_paper_title wR3) = some wR3 :=
  ⟨by decide, by decide,
    (claim_C6_exact_boundary [wR3] wR3 (by decide) (by decide)).2.2 (by decide)
      (by decide) (by decide)⟩

/-- C7: when no row's title starts with the candidate prefix extracted from
the label, the selector raises (modelled as `none`, the `.iloc[0]` failure on
an empty selection) instead of returning any row; a label the formatter cannot
have produced (no `"] "` separator) also raises rather than returning a row. -/
theorem claim_C7_selection_error (df : List Row) (label : Str) :
    (∀ cand, extractCandidate label = some cand →
        (∀ r ∈ df, ¬ cand <+: r.title) → selectPaper df label = none)
    ∧ (extractCandidate label = none → selectPaper df label = none) := by
  constructor
  · intro cand hc hno
    unfold selectPaper
    rw [hc]
    exact List.find?_eq_none.mpr fun x hx => by simpa using hno x hx
  · intro hc
    unfold selectPaper
    rw [hc]

/-- Witness for C7 at concrete input: the label "[Other] qq" extracts the
candidate "qq", which starts no title of the one-row table. -/
theorem claim_C7_witness :
    extractCandidate (str "[Other] qq") = some (str "qq")
    ∧ (∀ r ∈ [wR1], ¬ str "qq" <+: r.title)
    ∧ selectPaper [wR1] (str "[Other] qq") = none :=
  ⟨by decide, by decide,
    (claim_C7_selection_error [wR1] (str "[Other] qq")).1 (str "qq") (by decide)
      (by decide)⟩

/-! ## Claims about the loader -/

/-- Every joined row comes from some paper, joined either with no assessment
(when none matches) or with one matching assessment. -/
theorem mem_leftJoinRows (ps : List Paper) (as : List Assessment) (r : Row)
    (hr : r ∈ leftJoinRows ps as) :
    ∃ p ∈ ps,
      ((∀ a ∈ as, a.paper_id ≠ p.id) ∧ r = joinRow p none)
      ∨ ∃ a ∈ as, a.paper_id = p.id ∧ r = joinRow p (some a) := by
  unfold leftJoinRows at hr
  rw [List.mem_flatMap] at hr
  obtain ⟨p, hp, hrm⟩ := hr
  refine ⟨p, hp, ?_⟩
  cases hf : as.filter (fun a => a.paper_id = p.id) with
  | nil =>
    rw [hf] at hrm
    rw [List.filter_eq_nil_iff] at hf
    simp only [List.mem_singleton] at hrm
    exact Or.inl ⟨fun a ha => by simpa using hf a ha, hrm⟩
  | cons a ms =>
    rw [hf] at hrm
    simp only [List.mem_map] at hrm
    obtain ⟨a2, ha2, hr2⟩ := hrm
    have ha2f : a2 ∈ as.filter (fun a => a.paper_id = p.id) := hf ▸ ha2
    rw [List.mem_filter] at ha2f
    exact Or.inr ⟨a2, ha2f.1, by simpa using ha2f.2, hr2.symm⟩

/-- C5: under the data-model invariant that each paper has at most one
assessment row, every row produced by the loader has a derived status that is
exactly one of Unassessed, Neurosymbolic, Other; the status is Unassessed iff
no assessment row matches the paper; and it is Neurosymbolic iff a matching
assessment exists whose neurosymbolic flag is true (so it is Other in every
remaining case, the statuses being pairwise distinct). -/
theorem claim_C5_status_totality (ps : List Paper) (as : List Assessment)
    (huniq : ∀ a1 ∈ as, ∀ a2 ∈ as, a1.paper_id = a2.paper_id → a1 = a2)
    (r : Row) (hr : r ∈ load_paper_details ps as) :
    r.assessment_status ∈ validStatuses
    ∧ (r.assessment_status = str "Unassessed" ↔ ¬ ∃ a ∈ as, a.paper_id = r.id)
    ∧ (r.assessment_status = str "Neurosymbolic"
        ↔ ∃ a ∈ as, a.paper_id = r.id ∧ a.is_neurosymbolic = some true) := by
  rw [load_paper_details, List.mem_insertionSort] at hr
  obtain ⟨p, _, hcase⟩ := mem_leftJoinRows ps as r hr
  rcases hcase with ⟨hnone, rfl⟩ | ⟨a, haas, hpid, rfl⟩
  · have hst : (joinRow p none).assessment_status = str "Unassessed" := rfl
    have hnomatch : ¬ ∃ a ∈ as, a.paper_id = (joinRow p none).id := by
      rintro ⟨a, ha, hid⟩
      exact hnone a ha hid
    refine ⟨?_, iff_of_true hst hnomatch,
      iff_of_false ?_ fun ⟨a2, ha2, hpid2, _⟩ => hnomatch ⟨a2, ha2, hpid2⟩⟩
    · rw [hst]
      decide
    · rw [hst]
      decide
  · have hst : (joinRow p (some a)).assessment_status
        = (if a.is_neurosymbolic = some true then str "Neurosymbolic" else str "Other") := rfl
    have hmatch : ∃ a2 ∈ as, a2.paper_id = (joinRow p (some a)).id := ⟨a, haas, hpid⟩
    by_cases hn : a.is_neurosymbolic = some true
    · rw [hst, if_pos hn]
      refine ⟨by decide, iff_of_false (by decide) (fun hno => hno hmatch), ?_⟩
      exact iff_of_true rfl ⟨a, haas, hpid, hn⟩
    · rw [hst, if_neg hn]
      refine ⟨by decide, iff_of_false (by decide) (fun hno => hno hmatch), ?_⟩
      refine iff_of_false (by decide) ?_
      rintro ⟨a2, ha2, hpid2, hn2⟩
      exact hn (huniq a haas a2 ha2 (hpid.trans hpid2.symm) ▸ hn2)

/-- Paper of the C5 witness. -/
def wPaper : Paper := { id := 7, title := str "W", publication_year := some 2020 }

/-- Assessment of the C5 witness: neurosymbolic flag set. -/
def wAssessment : Assessment :=
  { paper_id := 7, is_neurosymbolic := some true, assessment_date := some 1 }

/-- Witness for C5 at concrete input: a single paper with its single
neurosymbolic assessment. -/
theorem claim_C5_witness :
    (∀ a1 ∈ [wAssessment], ∀ a2 ∈ [wAssessment], a1.paper_id = a2.paper_id → a1 = a2)
    ∧ joinRow wPaper (some wAssessment) ∈ load_paper_details [wPaper] [wAssessment]
    ∧ ((joinRow wPaper (some wAssessment)).assessment_status ∈ validStatuses
      ∧ ((joinRow wPaper (some wAssessment)).assessment_status = str "Unassessed"
          ↔ ¬ ∃ a ∈ [wAssessment], a.paper_id = (joinRow wPaper (some wAssessment)).id)
      ∧ ((joinRow wPaper (some wAssessment)).assessment_status = str "Neurosymbolic"
          ↔ ∃ a ∈ [wAssessment], a.paper_id = (joinRow wPaper (some wAssessment)).id
              ∧ a.is_neurosymbolic = some true)) :=
  ⟨by decide, by decide,
    claim_C5_status_totality [wPaper] [wAssessment] (by decide) _ (by decide)⟩

end LitView
